import Mathlib

/-!
Verification of the `fieldpath` addressable-value core
(`vendor/github.com/gardener/controller-manager-library/pkg/fieldpath/value.go`).

The file embeds the two implementations of the `value` interface —
`reflectValue` (a thin wrapper around `reflect.Value`) and `mapEntry`
(a mapping-entry handle with a cached element) — over an explicit model
of the Go runtime they manipulate: a heap of pointer targets and map
objects, and a model of `reflect.Value` as either the zero `Value`,
a non-addressable copy, or an addressable reference into the heap.

The `Reflect.*` operations encode the documented semantics of the Go
`reflect` package primitives that `value.go` calls (`Type`, `Interface`,
`Kind`, `Set`, `IsValid`, `Len`, `IsNil`, `Elem`, `Field`, `MapIndex`,
`SetMapIndex`); panics of the reflect runtime are represented as
`Except.error` outcomes.
-/

set_option autoImplicit false

namespace Fieldpath

/-- Go types, restricted to the shapes the component manipulates:
integers, strings, pointers, maps, structs and the empty interface.
A struct type is a cons-list of its field types
(`structCons t₀ (structCons t₁ structNil)`). -/
inductive Ty where
  | int
  | str
  | ptr (pointee : Ty)
  | map (key val : Ty)
  | structNil
  | structCons (fieldTy rest : Ty)
  | iface
deriving DecidableEq, Repr

/-- `reflect.Kind`: the coarse category of a type.  The zero `reflect.Value`
has kind `invalid`. -/
inductive Kind where
  | invalid
  | int
  | str
  | ptr
  | map
  | struct
  | iface
deriving DecidableEq, Repr

/-- `reflect.Type.Kind()`. -/
def Ty.kind : Ty → Kind
  | .int => .int
  | .str => .str
  | .ptr _ => .ptr
  | .map _ _ => .map
  | .structNil => .struct
  | .structCons _ _ => .struct
  | .iface => .iface

/-- `reflect.Type.Elem()`: the element type of a pointer or map type;
panics (here: `none`) on other kinds. -/
def Ty.elemTy : Ty → Option Ty
  | .ptr p => some p
  | .map _ v => some v
  | _ => none

/-- The field type at index `i` of a struct type. -/
def Ty.fieldTy : Ty → Nat → Option Ty
  | .structCons f _, 0 => some f
  | .structCons _ r, i + 1 => r.fieldTy i
  | _, _ => none

/-- Go runtime data.  Pointers and maps are reference values holding a heap
address (or `none` when nil); a struct value is a cons-list of its field
values; `box t v` is a value of dynamic type `t` stored in an
interface-typed location. -/
inductive GoVal where
  | int (n : Int)
  | str (s : String)
  | ptr (a : Option Nat)
  | mapref (a : Option Nat)
  | structNil
  | structCons (fieldVal rest : GoVal)
  | box (t : Ty) (v : GoVal)
deriving DecidableEq, Repr

/-- The field value at index `i` of a struct value. -/
def GoVal.fieldGet : GoVal → Nat → Option GoVal
  | .structCons f _, 0 => some f
  | .structCons _ r, i + 1 => r.fieldGet i
  | _, _ => none

/-- Replace the field value at index `i` of a struct value. -/
def GoVal.fieldSet : GoVal → Nat → GoVal → Option GoVal
  | .structCons _ r, 0, w => some (.structCons w r)
  | .structCons f r, i + 1, w =>
      match r.fieldSet i w with
      | some r2 => some (.structCons f r2)
      | none => none
  | _, _, _ => none

/-- `Interface()` of an interface-kinded value yields the dynamic value it
boxes; on any other value it is the identity. -/
def GoVal.unbox : GoVal → GoVal
  | .box _ v => v
  | v => v

/-- Navigate a chain of struct-field indices inside one value. -/
def getPath : GoVal → List Nat → Option GoVal
  | v, [] => some v
  | v, i :: p =>
      match v.fieldGet i with
      | some f => getPath f p
      | none => none

/-- Replace the value at the end of a chain of struct-field indices. -/
def setPath : GoVal → List Nat → GoVal → Option GoVal
  | _, [], w => some w
  | v, i :: p, w =>
      match v.fieldGet i with
      | some f =>
          match setPath f p w with
          | some f2 => v.fieldSet i f2
          | none => none
      | none => none

/-- The Go heap: pointer targets (`cells`) and map objects (`maps`),
the latter as association lists of key/value pairs. -/
structure Heap where
  cells : Nat → Option GoVal
  maps : Nat → Option (List (GoVal × GoVal))

/-- Overwrite a pointer target. -/
def Heap.setCell (h : Heap) (a : Nat) (v : GoVal) : Heap :=
  { h with cells := fun x => if x = a then some v else h.cells x }

/-- Overwrite a map object. -/
def Heap.setMapObj (h : Heap) (a : Nat) (m : List (GoVal × GoVal)) : Heap :=
  { h with maps := fun x => if x = a then some m else h.maps x }

/-- Association-list lookup (Go map read). -/
def assocGet : List (GoVal × GoVal) → GoVal → Option GoVal
  | [], _ => none
  | (k1, v1) :: r, k => if k1 = k then some v1 else assocGet r k

/-- Association-list insertion/update (Go map write). -/
def assocSet : List (GoVal × GoVal) → GoVal → GoVal → List (GoVal × GoVal)
  | [], k, v => [(k, v)]
  | (k1, v1) :: r, k, v =>
      if k1 = k then (k1, v) :: r else (k1, v1) :: assocSet r k v

/-- Association-list deletion (Go `SetMapIndex` with the zero `Value`). -/
def assocDel : List (GoVal × GoVal) → GoVal → List (GoVal × GoVal)
  | [], _ => []
  | (k1, v1) :: r, k => if k1 = k then r else (k1, v1) :: assocDel r k

/-- A `reflect.Value`: the zero `Value` (`invalid`), a non-addressable
copy of a value, or an addressable reference — a heap cell address plus
a chain of struct-field indices inside that cell (`CanSet` holds exactly
for references). -/
inductive RVal where
  | invalid
  | copy (t : Ty) (v : GoVal)
  | ref (t : Ty) (a : Nat) (path : List Nat)
deriving DecidableEq, Repr

/-- The static type carried by a non-zero `reflect.Value`. -/
def RVal.staticTy : RVal → Option Ty
  | .invalid => none
  | .copy t _ => some t
  | .ref t _ _ => some t

/-- Panics of the reflect runtime (`Except.error` outcomes). -/
inductive GoPanic where
  | invalidValue
  | kindMismatch
  | notAssignable
  | notAddressable
  | nilMap
  | badRef
  | fieldRange
deriving DecidableEq, Repr

namespace Reflect

/-- Read the data a `reflect.Value` currently denotes (`none` for the zero
`Value` or a dangling reference). -/
def readVal (h : Heap) : RVal → Option GoVal
  | .invalid => none
  | .copy _ v => some v
  | .ref _ a p =>
      match h.cells a with
      | some c => getPath c p
      | none => none

/-- `reflect.Value.Type()`: panics on the zero `Value`. -/
def typeOf : RVal → Except GoPanic Ty
  | .invalid => .error .invalidValue
  | .copy t _ => .ok t
  | .ref t _ _ => .ok t

/-- `reflect.Value.Kind()`: `invalid` for the zero `Value`, no panic. -/
def kindOf : RVal → Kind
  | .invalid => .invalid
  | .copy t _ => t.kind
  | .ref t _ _ => t.kind

/-- `reflect.Value.IsValid()`: never panics. -/
def isValid : RVal → Bool
  | .invalid => false
  | _ => true

/-- `reflect.Value.Interface()`: panics on the zero `Value`; on an
interface-kinded value returns the boxed dynamic value. -/
def interfaceOf (h : Heap) (v : RVal) : Except GoPanic GoVal :=
  match v with
  | .invalid => .error .invalidValue
  | _ =>
      match readVal h v with
      | some gv => .ok gv.unbox
      | none => .error .badRef

/-- `reflect.Value.Len()`: defined for string and map kinds (the container
kinds this model carries); `len` of a nil map is `0`; panics on every
other kind, in particular on scalars. -/
def len (h : Heap) (v : RVal) : Except GoPanic Nat :=
  match v.staticTy with
  | some .str =>
      match readVal h v with
      | some (.str s) => .ok s.length
      | _ => .error .badRef
  | some (.map _ _) =>
      match readVal h v with
      | some (.mapref none) => .ok 0
      | some (.mapref (some a)) =>
          match h.maps a with
          | some entries => .ok entries.length
          | none => .error .badRef
      | _ => .error .badRef
  | _ => .error .kindMismatch

/-- `reflect.Value.IsNil()`: defined for pointer, map and interface kinds
(this model has no chan/func/slice); panics on every other kind. -/
def isNil (h : Heap) (v : RVal) : Except GoPanic Bool :=
  match v.staticTy with
  | some (.ptr _) =>
      match readVal h v with
      | some (.ptr a) => .ok a.isNone
      | _ => .error .badRef
  | some (.map _ _) =>
      match readVal h v with
      | some (.mapref a) => .ok a.isNone
      | _ => .error .badRef
  | some .iface => .ok false
  | _ => .error .kindMismatch

/-- `reflect.Value.Elem()`: panics unless the kind is pointer or interface;
on a nil pointer it returns the zero `Value` (it does not panic); on a
non-nil pointer it returns an addressable reference to the pointee; on an
interface it returns a non-addressable copy of the dynamic value. -/
def elem (h : Heap) (v : RVal) : Except GoPanic RVal :=
  match v.staticTy with
  | some (.ptr t) =>
      match readVal h v with
      | some (.ptr none) => .ok .invalid
      | some (.ptr (some a)) => .ok (.ref t a [])
      | _ => .error .badRef
  | some .iface =>
      match readVal h v with
      | some (.box t gv) => .ok (.copy t gv)
      | _ => .error .badRef
  | _ => .error .kindMismatch

/-- Go assignability, restricted to this model: identical types, or any
type to the empty interface. -/
def assignable (vt target : Ty) : Bool :=
  vt = target || target = .iface

/-- Storing a value into a location of type `target`: assignment to an
interface-typed location boxes the value with its dynamic type. -/
def coerce (vt target : Ty) (v : GoVal) : GoVal :=
  if target = .iface ∧ vt ≠ .iface then .box vt v else v

/-- `reflect.Value.Set(arg)`: panics unless the destination is addressable
(`CanSet`) and the argument's type is assignable to the destination type;
writes the argument's value through to the heap. -/
def set (h : Heap) (dst arg : RVal) : Except GoPanic Heap :=
  match dst with
  | .ref t a p =>
      match arg.staticTy, readVal h arg with
      | some vt, some gv =>
          if assignable vt t then
            match h.cells a with
            | some c =>
                match setPath c p (coerce vt t gv) with
                | some c2 => .ok (h.setCell a c2)
                | none => .error .badRef
            | none => .error .badRef
          else .error .notAssignable
      | _, _ => .error .invalidValue
  | _ => .error .notAddressable

/-- `reflect.Value.Field(i)`: panics unless the kind is struct and `i` is
in range; a field of an addressable value is addressable, a field of a
copy is again a copy. -/
def field (v : RVal) (i : Nat) : Except GoPanic RVal :=
  match v with
  | .ref t a p =>
      match t.fieldTy i with
      | some ft => .ok (.ref ft a (p ++ [i]))
      | none => .error .fieldRange
  | .copy t gv =>
      match t.fieldTy i, gv.fieldGet i with
      | some ft, some fv => .ok (.copy ft fv)
      | _, _ => .error .fieldRange
  | .invalid => .error .kindMismatch

/-- `reflect.Value.MapIndex(k)`: panics unless the kind is map; returns the
zero `Value` when the map is nil or the key absent, and otherwise a
non-addressable copy of the stored value, typed with the map's declared
element type. -/
def mapIndex (h : Heap) (m : RVal) (k : GoVal) : Except GoPanic RVal :=
  match m.staticTy with
  | some (.map _ vt) =>
      match readVal h m with
      | some (.mapref none) => .ok .invalid
      | some (.mapref (some a)) =>
          match h.maps a with
          | some entries =>
              match assocGet entries k with
              | some gv => .ok (.copy vt gv)
              | none => .ok .invalid
          | none => .error .badRef
      | _ => .error .badRef
  | _ => .error .kindMismatch

/-- `reflect.Value.SetMapIndex(k, arg)`: panics unless the kind is map and
the argument is assignable to the map's element type; passing the zero
`Value` deletes the key; writing to a nil map panics. -/
def setMapIndex (h : Heap) (m : RVal) (k : GoVal) (arg : RVal) :
    Except GoPanic Heap :=
  match m.staticTy with
  | some (.map _ vt) =>
      match readVal h m with
      | some (.mapref none) =>
          match arg with
          | .invalid => .ok h
          | _ => .error .nilMap
      | some (.mapref (some a)) =>
          match h.maps a with
          | some entries =>
              match arg with
              | .invalid => .ok (h.setMapObj a (assocDel entries k))
              | _ =>
                  match arg.staticTy, readVal h arg with
                  | some vt2, some gv =>
                      if assignable vt2 vt then
                        .ok (h.setMapObj a (assocSet entries k (coerce vt2 vt gv)))
                      else .error .notAssignable
                  | _, _ => .error .invalidValue
          | none => .error .badRef
      | _ => .error .badRef
  | _ => .error .kindMismatch

end Reflect

/-!
The `value.go` implementations.  `reflectValue` is a `reflect.Value`
(`type reflectValue reflect.Value`); each method delegates to the
corresponding `reflect.Value` method.  Methods that can panic or that
touch the heap take the heap explicitly; `Set` returns the updated heap
together with the returned handle (`return this`).
-/

def reflectValue.Type (this : RVal) : Except GoPanic Ty :=
  Reflect.typeOf this

def reflectValue.Interface (h : Heap) (this : RVal) : Except GoPanic GoVal :=
  Reflect.interfaceOf h this

def reflectValue.Kind (this : RVal) : Kind :=
  Reflect.kindOf this

def reflectValue.Set (h : Heap) (this v : RVal) : Except GoPanic (Heap × RVal) :=
  (Reflect.set h this v).map fun h2 => (h2, this)

def reflectValue.IsValid (this : RVal) : Bool :=
  Reflect.isValid this

def reflectValue.Len (h : Heap) (this : RVal) : Except GoPanic Nat :=
  Reflect.len h this

def reflectValue.IsNil (h : Heap) (this : RVal) : Except GoPanic Bool :=
  Reflect.isNil h this

def reflectValue.Elem (h : Heap) (this : RVal) : Except GoPanic RVal :=
  Reflect.elem h this

def reflectValue.Value (this : RVal) : RVal :=
  this

/-- `mapEntry`: a handle for the entry of map `host` at key `key`, with an
optional cached element (`elem *reflect.Value` in the source, `nil` when no
element has been materialized yet).  Methods take the receiver by value, so
an update of `elem` is visible only on the returned copy. -/
structure mapEntry where
  host : RVal
  key : GoVal
  elem : Option RVal
  name : String
deriving DecidableEq, Repr

/-- `mapEntry.Type`: `this.host.Type().Elem()` without a cached element,
`this.elem.Type()` with one. -/
def mapEntry.Type (this : mapEntry) : Except GoPanic Ty :=
  match this.elem with
  | none =>
      (Reflect.typeOf this.host).bind fun t =>
        match t.elemTy with
        | some e => .ok e
        | none => .error .kindMismatch
  | some e => Reflect.typeOf e

/-- `mapEntry.Interface`: `this.host.MapIndex(this.key).Interface()` without
a cached element, `this.elem.Interface()` with one. -/
def mapEntry.Interface (h : Heap) (this : mapEntry) : Except GoPanic GoVal :=
  match this.elem with
  | none => (Reflect.mapIndex h this.host this.key).bind (Reflect.interfaceOf h)
  | some e => Reflect.interfaceOf h e

/-- `mapEntry.Kind`: `this.Type().Kind()`. -/
def mapEntry.Kind (this : mapEntry) : Except GoPanic Kind :=
  (mapEntry.Type this).map Ty.kind

/-- `mapEntry.Set`: `this.elem = &v; this.host.SetMapIndex(this.key, v);
return this`. -/
def mapEntry.Set (h : Heap) (this : mapEntry) (v : RVal) :
    Except GoPanic (Heap × mapEntry) :=
  (Reflect.setMapIndex h this.host this.key v).map fun h2 =>
    (h2, { this with elem := some v })

/-- `mapEntry.Value`: `this.host.MapIndex(this.key)` without a cached
element, `*this.elem` with one. -/
def mapEntry.Value (h : Heap) (this : mapEntry) : Except GoPanic RVal :=
  match this.elem with
  | none => Reflect.mapIndex h this.host this.key
  | some e => .ok e

/-- `mapEntry.IsValid`: `this.Value().IsValid()`. -/
def mapEntry.IsValid (h : Heap) (this : mapEntry) : Except GoPanic Bool :=
  (mapEntry.Value h this).map Reflect.isValid

/-- `mapEntry.Len`: `this.Value().Len()`. -/
def mapEntry.Len (h : Heap) (this : mapEntry) : Except GoPanic Nat :=
  (mapEntry.Value h this).bind (Reflect.len h)

/-- `mapEntry.IsNil`: `this.Value().IsNil()`. -/
def mapEntry.IsNil (h : Heap) (this : mapEntry) : Except GoPanic Bool :=
  (mapEntry.Value h this).bind (Reflect.isNil h)

/-- `mapEntry.Elem`: without a cached element, `e = this.host.MapIndex(this.key)`;
with one, `e = this.elem.Elem()`; then `this.elem = &e; return this`. -/
def mapEntry.Elem (h : Heap) (this : mapEntry) : Except GoPanic mapEntry :=
  match this.elem with
  | none =>
      (Reflect.mapIndex h this.host this.key).map fun e =>
        { this with elem := some e }
  | some e =>
      (Reflect.elem h e).map fun e2 =>
        { this with elem := some e2 }

/-! Basic lemmas about the heap and value model. -/

theorem GoVal.fieldSet_fieldGet (v : GoVal) (i : Nat) (w v2 : GoVal)
    (h : v.fieldSet i w = some v2) : v2.fieldGet i = some w := by
  induction v generalizing i v2 with
  | structCons f r _ ihr =>
      cases i with
      | zero =>
          simp only [GoVal.fieldSet, Option.some.injEq] at h
          subst h
          rfl
      | succ i =>
          cases hr : r.fieldSet i w with
          | none =>
              simp only [GoVal.fieldSet, hr] at h
              exact Option.noConfusion h
          | some r2 =>
              simp only [GoVal.fieldSet, hr, Option.some.injEq] at h
              subst h
              exact ihr i r2 hr
  | int n => simp [GoVal.fieldSet] at h
  | str s => simp [GoVal.fieldSet] at h
  | ptr a => simp [GoVal.fieldSet] at h
  | mapref a => simp [GoVal.fieldSet] at h
  | structNil => simp [GoVal.fieldSet] at h
  | box t gv _ => simp [GoVal.fieldSet] at h

theorem GoVal.fieldSet_fieldGet_isSome (v : GoVal) (i : Nat) (w v2 : GoVal)
    (h : v.fieldSet i w = some v2) : ∃ f, v.fieldGet i = some f := by
  induction v generalizing i v2 with
  | structCons f r _ ihr =>
      cases i with
      | zero => exact ⟨f, rfl⟩
      | succ i =>
          cases hr : r.fieldSet i w with
          | none =>
              simp only [GoVal.fieldSet, hr] at h
              exact Option.noConfusion h
          | some r2 =>
              obtain ⟨g, hg⟩ := ihr i r2 hr
              exact ⟨g, hg⟩
  | int n => simp [GoVal.fieldSet] at h
  | str s => simp [GoVal.fieldSet] at h
  | ptr a => simp [GoVal.fieldSet] at h
  | mapref a => simp [GoVal.fieldSet] at h
  | structNil => simp [GoVal.fieldSet] at h
  | box t gv _ => simp [GoVal.fieldSet] at h

theorem setPath_single (c : GoVal) (i : Nat) (w c2 : GoVal)
    (h : c.fieldSet i w = some c2) : setPath c [i] w = some c2 := by
  obtain ⟨f, hf⟩ := GoVal.fieldSet_fieldGet_isSome c i w c2 h
  simp [setPath, hf, h]

theorem getPath_setPath (p : List Nat) (c c2 w : GoVal)
    (h : setPath c p w = some c2) : getPath c2 p = some w := by
  induction p generalizing c c2 with
  | nil =>
      simp only [setPath, Option.some.injEq] at h
      subst h
      rfl
  | cons i p ih =>
      cases hf : c.fieldGet i with
      | none =>
          simp only [setPath, hf] at h
          exact Option.noConfusion h
      | some f =>
          cases hs : setPath f p w with
          | none =>
              simp only [setPath, hf, hs] at h
              exact Option.noConfusion h
          | some f2 =>
              simp only [setPath, hf, hs] at h
              have hg : c2.fieldGet i = some f2 :=
                GoVal.fieldSet_fieldGet c i f2 c2 h
              simp only [getPath, hg]
              exact ih f f2 hs

theorem assocGet_assocSet (l : List (GoVal × GoVal)) (k v : GoVal) :
    assocGet (assocSet l k v) k = some v := by
  induction l with
  | nil => simp [assocSet, assocGet]
  | cons hd tl ih =>
      by_cases hk : hd.1 = k
      · simp [assocSet, assocGet, hk]
      · simp [assocSet, assocGet, hk, ih]

theorem Heap.setMapObj_cells (h : Heap) (a : Nat) (m : List (GoVal × GoVal)) :
    (h.setMapObj a m).cells = h.cells := rfl

theorem Heap.setMapObj_maps_self (h : Heap) (a : Nat) (m : List (GoVal × GoVal)) :
    (h.setMapObj a m).maps a = some m := by
  simp [Heap.setMapObj]

theorem Heap.setCell_maps (h : Heap) (a : Nat) (v : GoVal) :
    (h.setCell a v).maps = h.maps := rfl

theorem Heap.setCell_cells_self (h : Heap) (a : Nat) (v : GoVal) :
    (h.setCell a v).cells a = some v := by
  simp [Heap.setCell]

theorem exceptBindOk {A B : Type} (a : A) (f : A → Except GoPanic B) :
    (Except.ok a : Except GoPanic A).bind f = f a := rfl

theorem exceptBindError {A B : Type} (p : GoPanic) (f : A → Except GoPanic B) :
    (Except.error p : Except GoPanic A).bind f = .error p := rfl

theorem exceptMapOk {A B : Type} (a : A) (f : A → B) :
    Except.map f (Except.ok a : Except GoPanic A) = .ok (f a) := rfl

theorem exceptMapError {A B : Type} (p : GoPanic) (f : A → B) :
    Except.map f (Except.error p : Except GoPanic A) = .error p := rfl

attribute [simp] exceptBindOk exceptBindError exceptMapOk exceptMapError

theorem Reflect.readVal_setMapObj (h : Heap) (a : Nat)
    (m : List (GoVal × GoVal)) (v : RVal) :
    Reflect.readVal (h.setMapObj a m) v = Reflect.readVal h v := by
  cases v <;> rfl

theorem Reflect.typeOf_of_staticTy (v : RVal) (t : Ty)
    (h : v.staticTy = some t) : Reflect.typeOf v = .ok t := by
  cases v with
  | invalid => simp [RVal.staticTy] at h
  | copy t2 gv =>
      simp only [RVal.staticTy, Option.some.injEq] at h
      subst h
      rfl
  | ref t2 a p =>
      simp only [RVal.staticTy, Option.some.injEq] at h
      subst h
      rfl

theorem Reflect.coerce_unbox (vt target : Ty) (gv : GoVal)
    (hwt : vt ≠ .iface → gv.unbox = gv) :
    (Reflect.coerce vt target gv).unbox = gv.unbox := by
  unfold Reflect.coerce
  by_cases hc : target = Ty.iface ∧ vt ≠ Ty.iface
  · rw [if_pos hc]
    rw [hwt hc.2]
    rfl
  · rw [if_neg hc]

/-! Fixtures used by the witness theorems below: the spec's running
example, a map `string → *Record` where `Record` has one string field. -/

def heapEmpty : Heap := ⟨fun _ => none, fun _ => none⟩

def recT : Ty := .structCons .str .structNil

def recMapT : Ty := .map .str (.ptr recT)

def sampleHeap : Heap :=
  ⟨fun a => if a = 1 then some (.structCons (.str "x") .structNil) else none,
   fun a => if a = 0 then some [] else none⟩

def sampleHost : RVal := .copy recMapT (.mapref (some 0))

def presentHeap : Heap :=
  ⟨fun a => if a = 1 then some (.structCons (.str "x") .structNil) else none,
   fun a => if a = 0 then some [(GoVal.str "a", GoVal.ptr (some 1))] else none⟩

def ifaceHeap : Heap :=
  ⟨fun _ => none,
   fun a => if a = 0 then some [(GoVal.str "k", GoVal.box .int (.int 3))] else none⟩

def ifaceHost : RVal := .copy (.map .str .iface) (.mapref (some 0))

/-! The claims. -/

/-- Claim C5, as stated, is false on the code: on a handle addressing a nil
pointer, `IsNil()` is true, but `Elem()` does not abort — following
`reflect.Value.Elem`, it returns the zero `Value` (an invalid handle)
without panicking. -/
theorem nilPtr_elem_returns_invalid_counterexample :
    reflectValue.IsNil heapEmpty (.copy (.ptr .int) (.ptr none)) = .ok true ∧
    reflectValue.Elem heapEmpty (.copy (.ptr .int) (.ptr none)) = .ok .invalid := by
  exact ⟨rfl, rfl⟩

/-- Claim C5 (amended): for every handle addressing a nil pointer,
`IsNil()` returns true, and `Elem()` does not silently dereference the
pointer: it returns the invalid handle (on which `IsValid()` is false)
rather than a handle on a pointee, and it does not abort. -/
theorem nilPtr_isNil_elem_invalid (h : Heap) (t : Ty) (v : RVal)
    (hty : v.staticTy = some (.ptr t))
    (hrd : Reflect.readVal h v = some (.ptr none)) :
    reflectValue.IsNil h v = .ok true ∧
    reflectValue.Elem h v = .ok .invalid ∧
    reflectValue.IsValid .invalid = false := by
  refine ⟨?_, ?_, rfl⟩
  · simp [reflectValue.IsNil, Reflect.isNil, hty, hrd]
  · simp [reflectValue.Elem, Reflect.elem, hty, hrd]

/-- Witness for the amended claim C5 at a concrete nil `*int` handle. -/
theorem nilPtr_isNil_elem_invalid_witness :
    (RVal.copy (.ptr .int) (.ptr none)).staticTy = some (.ptr .int) ∧
    Reflect.readVal heapEmpty (.copy (.ptr .int) (.ptr none)) = some (.ptr none) ∧
    (reflectValue.IsNil heapEmpty (.copy (.ptr .int) (.ptr none)) = .ok true ∧
     reflectValue.Elem heapEmpty (.copy (.ptr .int) (.ptr none)) = .ok .invalid ∧
     reflectValue.IsValid .invalid = false) :=
  ⟨rfl, rfl, nilPtr_isNil_elem_invalid heapEmpty .int _ rfl rfl⟩

/-- Claim C9: calling `Len()` on a handle addressing a scalar (an integer)
is a fail-fast contract violation — a reflect panic — for both the direct
variant and the mapping-entry variant (through its cached element); it is
never a silent zero. -/
theorem len_on_scalar_panics (h : Heap) (v : RVal) (me : mapEntry)
    (hk : v.staticTy = some .int) (hme : me.elem = some v) :
    reflectValue.Len h v = .error .kindMismatch ∧
    mapEntry.Len h me = .error .kindMismatch := by
  constructor
  · simp [reflectValue.Len, Reflect.len, hk]
  · simp [mapEntry.Len, mapEntry.Value, hme, Reflect.len, hk]

/-- Witness for claim C9 at a concrete integer handle. -/
theorem len_on_scalar_panics_witness :
    (RVal.copy .int (.int 5)).staticTy = some .int ∧
    (⟨sampleHost, .str "a", some (.copy .int (.int 5)), "a"⟩ : mapEntry).elem
      = some (.copy .int (.int 5)) ∧
    (reflectValue.Len heapEmpty (.copy .int (.int 5)) = .error .kindMismatch ∧
     mapEntry.Len heapEmpty ⟨sampleHost, .str "a", some (.copy .int (.int 5)), "a"⟩
       = .error .kindMismatch) :=
  ⟨rfl, rfl, len_on_scalar_panics heapEmpty (.copy .int (.int 5)) _ rfl rfl⟩

/-- Claim C2: on a mapping-entry handle with no cached element, a single
`Elem()` call materializes the cache by reading the mapping at the key:
the returned handle is the same entry (same host, key, name) with the
cache populated by exactly the value stored in the mapping entry, and the
returned handle now addresses that value (its `Value()` is the cached
copy and its `Interface()` is that stored value). -/
theorem mapEntry_elem_materializes_cache (h : Heap) (kt vt : Ty) (ma : Nat)
    (K gv : GoVal) (entries : List (GoVal × GoVal)) (host : RVal) (nm : String)
    (hty : host.staticTy = some (.map kt vt))
    (hrd : Reflect.readVal h host = some (.mapref (some ma)))
    (hm : h.maps ma = some entries)
    (hg : assocGet entries K = some gv) :
    mapEntry.Elem h ⟨host, K, none, nm⟩ = .ok ⟨host, K, some (.copy vt gv), nm⟩ ∧
    mapEntry.Value h ⟨host, K, some (.copy vt gv), nm⟩ = .ok (.copy vt gv) ∧
    mapEntry.Interface h ⟨host, K, some (.copy vt gv), nm⟩ = .ok gv.unbox := by
  refine ⟨?_, rfl, rfl⟩
  simp [mapEntry.Elem, Reflect.mapIndex, hty, hrd, hm, hg]

/-- Witness for claim C2 on a map with key `"a"` present. -/
theorem mapEntry_elem_materializes_cache_witness :
    sampleHost.staticTy = some (.map .str (.ptr recT)) ∧
    Reflect.readVal presentHeap sampleHost = some (.mapref (some 0)) ∧
    presentHeap.maps 0 = some [(GoVal.str "a", GoVal.ptr (some 1))] ∧
    assocGet [(GoVal.str "a", GoVal.ptr (some 1))] (.str "a") = some (.ptr (some 1)) ∧
    (mapEntry.Elem presentHeap ⟨sampleHost, .str "a", none, "a"⟩
       = .ok ⟨sampleHost, .str "a", some (.copy (.ptr recT) (.ptr (some 1))), "a"⟩ ∧
     mapEntry.Value presentHeap
       ⟨sampleHost, .str "a", some (.copy (.ptr recT) (.ptr (some 1))), "a"⟩
       = .ok (.copy (.ptr recT) (.ptr (some 1))) ∧
     mapEntry.Interface presentHeap
       ⟨sampleHost, .str "a", some (.copy (.ptr recT) (.ptr (some 1))), "a"⟩
       = .ok (GoVal.ptr (some 1)).unbox) :=
  ⟨rfl, rfl, rfl, by decide,
   mapEntry_elem_materializes_cache presentHeap .str (.ptr recT) 0 (.str "a")
     (.ptr (some 1)) _ sampleHost "a" rfl rfl rfl (by decide)⟩

/-- Claim C7: `Type()` of a mapping-entry handle with no cached element is
the mapping's statically declared element type, `host.Type().Elem()` — it
takes no heap argument at all, so it cannot depend on the dynamic type of
the value currently stored under the key; once a cached element exists,
`Type()` is the cached element's type. -/
theorem mapEntry_type_static (this : mapEntry) (kt vt : Ty)
    (hh : this.host.staticTy = some (.map kt vt)) :
    (this.elem = none → mapEntry.Type this = .ok vt) ∧
    (∀ e : RVal, this.elem = some e → mapEntry.Type this = Reflect.typeOf e) := by
  constructor
  · intro h0
    simp [mapEntry.Type, h0, Reflect.typeOf_of_staticTy this.host _ hh, Ty.elemTy]
  · intro e he
    simp [mapEntry.Type, he]

/-- Witness for claim C7: a `map[string]interface` entry storing an `int`
has static type `iface` while the stored dynamic type is `int`. -/
theorem mapEntry_type_static_witness :
    (⟨ifaceHost, .str "k", none, "k"⟩ : mapEntry).host.staticTy
      = some (.map .str .iface) ∧
    mapEntry.Type ⟨ifaceHost, .str "k", none, "k"⟩ = .ok .iface ∧
    mapEntry.Type ⟨ifaceHost, .str "k", some (.copy .int (.int 3)), "k"⟩
      = Reflect.typeOf (.copy .int (.int 3)) :=
  ⟨rfl,
   (mapEntry_type_static ⟨ifaceHost, .str "k", none, "k"⟩ .str .iface rfl).1 rfl,
   (mapEntry_type_static ⟨ifaceHost, .str "k", some (.copy .int (.int 3)), "k"⟩
      .str .iface rfl).2 (.copy .int (.int 3)) rfl⟩

/-- Claim C6: a mapping-entry handle on an absent key is a checkable data
state, not a fault: `IsValid()` returns `false` without aborting, while
`Interface()` on the same handle is clearly distinguished from any present
value — it is a reflect panic (`Interface` on the zero `Value`), never a
successful read, so it can never be confused with a present zero value. -/
theorem absent_key_isValid_false (h : Heap) (kt vt : Ty) (ma : Nat)
    (K : GoVal) (entries : List (GoVal × GoVal)) (host : RVal) (nm : String)
    (hty : host.staticTy = some (.map kt vt))
    (hrd : Reflect.readVal h host = some (.mapref (some ma)))
    (hm : h.maps ma = some entries)
    (hab : assocGet entries K = none) :
    mapEntry.IsValid h ⟨host, K, none, nm⟩ = .ok false ∧
    mapEntry.Interface h ⟨host, K, none, nm⟩ = .error .invalidValue ∧
    (∀ gv : GoVal, mapEntry.Interface h ⟨host, K, none, nm⟩ ≠ .ok gv) := by
  have hmi : Reflect.mapIndex h host K = .ok .invalid := by
    simp [Reflect.mapIndex, hty, hrd, hm, hab]
  refine ⟨?_, ?_, ?_⟩
  · simp [mapEntry.IsValid, mapEntry.Value, hmi, Reflect.isValid]
  · simp [mapEntry.Interface, hmi, Reflect.interfaceOf]
  · intro gv
    simp [mapEntry.Interface, hmi, Reflect.interfaceOf]

/-- Witness for claim C6 on an empty `map[string]*Record` at key `"a"`. -/
theorem absent_key_isValid_false_witness :
    sampleHost.staticTy = some (.map .str (.ptr recT)) ∧
    Reflect.readVal sampleHeap sampleHost = some (.mapref (some 0)) ∧
    sampleHeap.maps 0 = some [] ∧
    assocGet [] (.str "a") = none ∧
    mapEntry.IsValid sampleHeap ⟨sampleHost, .str "a", none, "a"⟩ = .ok false ∧
    mapEntry.Interface sampleHeap ⟨sampleHost, .str "a", none, "a"⟩
      = .error .invalidValue :=
  ⟨rfl, rfl, rfl, rfl,
   (absent_key_isValid_false sampleHeap .str (.ptr recT) 0 (.str "a") [] sampleHost
      "a" rfl rfl rfl rfl).1,
   (absent_key_isValid_false sampleHeap .str (.ptr recT) 0 (.str "a") [] sampleHost
      "a" rfl rfl rfl rfl).2.1⟩

/-- Claim C10: `mapEntry` methods take the receiver by value — in this pure
embedding the original handle is a value that the call cannot modify — and
the handle returned by `Set` or `Elem` agrees with the original on `host`,
`key` and `name`; only its `elem` cache is updated (`Set` caches exactly
the written value, `Elem` leaves a populated cache). -/
theorem mapEntry_receiver_by_value (h h2 : Heap) (me me2 me3 : mapEntry) (v : RVal)
    (hset : mapEntry.Set h me v = .ok (h2, me2))
    (helem : mapEntry.Elem h me = .ok me3) :
    me2.host = me.host ∧ me2.key = me.key ∧ me2.name = me.name ∧
    me2.elem = some v ∧
    me3.host = me.host ∧ me3.key = me.key ∧ me3.name = me.name ∧
    me3.elem.isSome = true := by
  obtain ⟨ho, ke, el, nme⟩ := me
  have hs : me2 = ⟨ho, ke, some v, nme⟩ := by
    unfold mapEntry.Set at hset
    cases hsm : Reflect.setMapIndex h ho ke v with
    | error p => rw [hsm] at hset; simp at hset
    | ok hh =>
        rw [hsm] at hset
        simp only [exceptMapOk, Except.ok.injEq, Prod.mk.injEq] at hset
        exact hset.2.symm
  subst hs
  refine ⟨rfl, rfl, rfl, rfl, ?_⟩
  unfold mapEntry.Elem at helem
  cases el with
  | none =>
      dsimp only at helem
      cases hmi : Reflect.mapIndex h ho ke with
      | error p => rw [hmi] at helem; simp at helem
      | ok e =>
          rw [hmi] at helem
          simp only [exceptMapOk, Except.ok.injEq] at helem
          subst helem
          exact ⟨rfl, rfl, rfl, rfl⟩
  | some e =>
      dsimp only at helem
      cases hel : Reflect.elem h e with
      | error p => rw [hel] at helem; simp at helem
      | ok e2 =>
          rw [hel] at helem
          simp only [exceptMapOk, Except.ok.injEq] at helem
          subst helem
          exact ⟨rfl, rfl, rfl, rfl⟩

/-- Witness for claim C10 on the empty sample map, where `Set` succeeds and
`Elem` (absent key) also succeeds. -/
theorem mapEntry_receiver_by_value_witness :
    mapEntry.Set sampleHeap ⟨sampleHost, .str "a", none, "a"⟩
        (.copy (.ptr recT) (.ptr (some 1)))
      = .ok (sampleHeap.setMapObj 0 [(GoVal.str "a", GoVal.ptr (some 1))],
          ⟨sampleHost, .str "a", some (.copy (.ptr recT) (.ptr (some 1))), "a"⟩) ∧
    mapEntry.Elem sampleHeap ⟨sampleHost, .str "a", none, "a"⟩
      = .ok ⟨sampleHost, .str "a", some .invalid, "a"⟩ ∧
    ((⟨sampleHost, .str "a", some (.copy (.ptr recT) (.ptr (some 1))), "a"⟩ :
        mapEntry).host = sampleHost ∧
     (⟨sampleHost, .str "a", some (.copy (.ptr recT) (.ptr (some 1))), "a"⟩ :
        mapEntry).key = .str "a" ∧
     (⟨sampleHost, .str "a", some (.copy (.ptr recT) (.ptr (some 1))), "a"⟩ :
        mapEntry).name = "a" ∧
     (⟨sampleHost, .str "a", some (.copy (.ptr recT) (.ptr (some 1))), "a"⟩ :
        mapEntry).elem = some (.copy (.ptr recT) (.ptr (some 1))) ∧
     (⟨sampleHost, .str "a", some .invalid, "a"⟩ : mapEntry).host = sampleHost ∧
     (⟨sampleHost, .str "a", some .invalid, "a"⟩ : mapEntry).key = .str "a" ∧
     (⟨sampleHost, .str "a", some .invalid, "a"⟩ : mapEntry).name = "a" ∧
     (⟨sampleHost, .str "a", some .invalid, "a"⟩ : mapEntry).elem.isSome = true) :=
  ⟨rfl, rfl,
   mapEntry_receiver_by_value sampleHeap
     (sampleHeap.setMapObj 0 [(GoVal.str "a", GoVal.ptr (some 1))])
     ⟨sampleHost, .str "a", none, "a"⟩
     ⟨sampleHost, .str "a", some (.copy (.ptr recT) (.ptr (some 1))), "a"⟩
     ⟨sampleHost, .str "a", some .invalid, "a"⟩
     (.copy (.ptr recT) (.ptr (some 1))) rfl rfl⟩

/-- Claim C3: `Set(v)` on a mapping-entry handle re-inserts `v` into the
backing mapping under the original key (the map object now holds the
written value at that key) and the returned handle's cache is `v`, so
`Value`, `Interface` and `Type` on that handle answer from the cache —
they are independent of the heap (any `h3`, hence no further query of the
mapping) and return the written value and its type. -/
theorem mapEntry_set_reinserts_and_caches (h : Heap) (kt vt vt2 : Ty) (ma : Nat)
    (K gv : GoVal) (entries : List (GoVal × GoVal)) (host : RVal)
    (c0 : Option RVal) (nm : String)
    (hty : host.staticTy = some (.map kt vt))
    (hrd : Reflect.readVal h host = some (.mapref (some ma)))
    (hm : h.maps ma = some entries)
    (ha : Reflect.assignable vt2 vt = true) :
    mapEntry.Set h ⟨host, K, c0, nm⟩ (.copy vt2 gv) =
      .ok (h.setMapObj ma (assocSet entries K (Reflect.coerce vt2 vt gv)),
        ⟨host, K, some (.copy vt2 gv), nm⟩) ∧
    (h.setMapObj ma (assocSet entries K (Reflect.coerce vt2 vt gv))).maps ma
      = some (assocSet entries K (Reflect.coerce vt2 vt gv)) ∧
    (∀ h3 : Heap,
        mapEntry.Value h3 ⟨host, K, some (.copy vt2 gv), nm⟩ = .ok (.copy vt2 gv) ∧
        mapEntry.Interface h3 ⟨host, K, some (.copy vt2 gv), nm⟩ = .ok gv.unbox ∧
        mapEntry.Type ⟨host, K, some (.copy vt2 gv), nm⟩ = .ok vt2) := by
  refine ⟨?_, Heap.setMapObj_maps_self h ma _, fun h3 => ⟨rfl, rfl, rfl⟩⟩
  have hargTy : (RVal.copy vt2 gv).staticTy = some vt2 := rfl
  have hargRd : Reflect.readVal h (.copy vt2 gv) = some gv := rfl
  simp [mapEntry.Set, Reflect.setMapIndex, hty, hrd, hm, ha, hargTy, hargRd]

/-- Witness for claim C3: writing `&Record` under the absent key `"a"`. -/
theorem mapEntry_set_reinserts_and_caches_witness :
    sampleHost.staticTy = some (.map .str (.ptr recT)) ∧
    Reflect.readVal sampleHeap sampleHost = some (.mapref (some 0)) ∧
    sampleHeap.maps 0 = some [] ∧
    Reflect.assignable (.ptr recT) (.ptr recT) = true ∧
    (mapEntry.Set sampleHeap ⟨sampleHost, .str "a", none, "a"⟩
        (.copy (.ptr recT) (.ptr (some 1))) =
      .ok (sampleHeap.setMapObj 0
             (assocSet [] (.str "a") (Reflect.coerce (.ptr recT) (.ptr recT) (.ptr (some 1)))),
        ⟨sampleHost, .str "a", some (.copy (.ptr recT) (.ptr (some 1))), "a"⟩) ∧
     (sampleHeap.setMapObj 0
        (assocSet [] (.str "a")
          (Reflect.coerce (.ptr recT) (.ptr recT) (.ptr (some 1))))).maps 0
       = some (assocSet [] (.str "a")
           (Reflect.coerce (.ptr recT) (.ptr recT) (.ptr (some 1)))) ∧
     mapEntry.Value heapEmpty
         ⟨sampleHost, .str "a", some (.copy (.ptr recT) (.ptr (some 1))), "a"⟩
       = .ok (.copy (.ptr recT) (.ptr (some 1))) ∧
     mapEntry.Interface heapEmpty
         ⟨sampleHost, .str "a", some (.copy (.ptr recT) (.ptr (some 1))), "a"⟩
       = .ok (GoVal.ptr (some 1)).unbox ∧
     mapEntry.Type
         ⟨sampleHost, .str "a", some (.copy (.ptr recT) (.ptr (some 1))), "a"⟩
       = .ok (.ptr recT)) :=
  ⟨rfl, rfl, rfl, by decide,
   (mapEntry_set_reinserts_and_caches sampleHeap .str (.ptr recT) (.ptr recT) 0
      (.str "a") (.ptr (some 1)) [] sampleHost none "a" rfl rfl rfl (by decide)).1,
   (mapEntry_set_reinserts_and_caches sampleHeap .str (.ptr recT) (.ptr recT) 0
      (.str "a") (.ptr (some 1)) [] sampleHost none "a" rfl rfl rfl (by decide)).2.1,
   (mapEntry_set_reinserts_and_caches sampleHeap .str (.ptr recT) (.ptr recT) 0
      (.str "a") (.ptr (some 1)) [] sampleHost none "a" rfl rfl rfl
      (by decide)).2.2 heapEmpty⟩

/-- Claim C4: read-after-write through the owning container — after
`Set(v)` on a mapping-entry handle (key present or absent before), an
independent `MapIndex` read of the backing mapping at the original key,
taken on the updated heap, yields exactly `v` (as an interface value). -/
theorem mapEntry_set_visible_in_map (h : Heap) (kt vt vt2 : Ty) (ma : Nat)
    (K gv : GoVal) (entries : List (GoVal × GoVal)) (host : RVal)
    (c0 : Option RVal) (nm : String)
    (hty : host.staticTy = some (.map kt vt))
    (hrd : Reflect.readVal h host = some (.mapref (some ma)))
    (hm : h.maps ma = some entries)
    (ha : Reflect.assignable vt2 vt = true)
    (hwt : vt2 ≠ .iface → gv.unbox = gv) :
    (mapEntry.Set h ⟨host, K, c0, nm⟩ (.copy vt2 gv)).bind
        (fun s => (Reflect.mapIndex s.1 host K).bind (Reflect.interfaceOf s.1)) =
      Reflect.interfaceOf h (.copy vt2 gv) := by
  have hargTy : (RVal.copy vt2 gv).staticTy = some vt2 := rfl
  have hargRd : ∀ hx : Heap, Reflect.readVal hx (.copy vt2 gv) = some gv :=
    fun _ => rfl
  have hrd2 : Reflect.readVal
      (h.setMapObj ma (assocSet entries K (Reflect.coerce vt2 vt gv))) host
      = some (.mapref (some ma)) := by
    rw [Reflect.readVal_setMapObj, hrd]
  have hargRd2 : ∀ hx : Heap,
      Reflect.readVal hx (.copy vt (Reflect.coerce vt2 vt gv))
        = some (Reflect.coerce vt2 vt gv) :=
    fun _ => rfl
  simp [mapEntry.Set, Reflect.setMapIndex, Reflect.mapIndex, Reflect.interfaceOf,
    hty, hrd, hm, ha, hargTy, hargRd, hrd2, hargRd2,
    Heap.setMapObj_maps_self, assocGet_assocSet,
    Reflect.coerce_unbox vt2 vt gv hwt]

/-- Witness for claim C4: the write to key `"a"` is visible when the map is
read back independently. -/
theorem mapEntry_set_visible_in_map_witness :
    sampleHost.staticTy = some (.map .str (.ptr recT)) ∧
    Reflect.readVal sampleHeap sampleHost = some (.mapref (some 0)) ∧
    sampleHeap.maps 0 = some [] ∧
    Reflect.assignable (.ptr recT) (.ptr recT) = true ∧
    ((Ty.ptr recT ≠ Ty.iface → (GoVal.ptr (some 1)).unbox = GoVal.ptr (some 1))) ∧
    (mapEntry.Set sampleHeap ⟨sampleHost, .str "a", none, "a"⟩
        (.copy (.ptr recT) (.ptr (some 1)))).bind
        (fun s => (Reflect.mapIndex s.1 sampleHost (.str "a")).bind
          (Reflect.interfaceOf s.1)) =
      Reflect.interfaceOf sampleHeap (.copy (.ptr recT) (.ptr (some 1))) :=
  ⟨rfl, rfl, rfl, by decide, fun _ => rfl,
   mapEntry_set_visible_in_map sampleHeap .str (.ptr recT) (.ptr recT) 0
     (.str "a") (.ptr (some 1)) [] sampleHost none "a" rfl rfl rfl (by decide)
     (fun _ => rfl)⟩

/-- Claim C8: read-after-write for the direct variant — on an addressable
handle (a struct field or similar directly addressable location) whose
stored value admits the write, `Set(v)` succeeds, returns the same handle,
and a subsequent `Interface()` on it reads back exactly `v` (as an
interface value). -/
theorem reflectValue_set_interface (h : Heap) (t vt2 : Ty) (a : Nat)
    (p : List Nat) (c c2 gv : GoVal)
    (hc : h.cells a = some c)
    (hsp : setPath c p (Reflect.coerce vt2 t gv) = some c2)
    (ha : Reflect.assignable vt2 t = true)
    (hwt : vt2 ≠ .iface → gv.unbox = gv) :
    reflectValue.Set h (.ref t a p) (.copy vt2 gv) = .ok (h.setCell a c2, .ref t a p) ∧
    reflectValue.Interface (h.setCell a c2) (.ref t a p)
      = Reflect.interfaceOf h (.copy vt2 gv) := by
  have hargTy : (RVal.copy vt2 gv).staticTy = some vt2 := rfl
  have hargRd : ∀ hx : Heap, Reflect.readVal hx (.copy vt2 gv) = some gv :=
    fun _ => rfl
  constructor
  · simp [reflectValue.Set, Reflect.set, hc, hsp, ha, hargTy, hargRd]
  · have hrd : Reflect.readVal (h.setCell a c2) (.ref t a p)
        = some (Reflect.coerce vt2 t gv) := by
      simp [Reflect.readVal, Heap.setCell_cells_self h a c2,
        getPath_setPath p c c2 _ hsp]
    simp [reflectValue.Interface, Reflect.interfaceOf, hrd, hargRd,
      Reflect.coerce_unbox vt2 t gv hwt]

/-- Witness for claim C8: overwriting the string field of the sample record
through an addressable field handle. -/
theorem reflectValue_set_interface_witness :
    presentHeap.cells 1 = some (.structCons (.str "x") .structNil) ∧
    setPath (.structCons (.str "x") .structNil) [0]
        (Reflect.coerce .str .str (.str "y"))
      = some (.structCons (.str "y") .structNil) ∧
    Reflect.assignable .str .str = true ∧
    (Ty.str ≠ Ty.iface → (GoVal.str "y").unbox = GoVal.str "y") ∧
    (reflectValue.Set presentHeap (.ref .str 1 [0]) (.copy .str (.str "y"))
       = .ok (presentHeap.setCell 1 (.structCons (.str "y") .structNil),
           .ref .str 1 [0]) ∧
     reflectValue.Interface
         (presentHeap.setCell 1 (.structCons (.str "y") .structNil))
         (.ref .str 1 [0])
       = Reflect.interfaceOf presentHeap (.copy .str (.str "y"))) :=
  ⟨rfl, by decide, by decide, fun _ => rfl,
   reflectValue_set_interface presentHeap .str .str 1 [0]
     (.structCons (.str "x") .structNil) (.structCons (.str "y") .structNil)
     (.str "y") rfl (by decide) (by decide) (fun _ => rfl)⟩

/-- Claim C1: chained descent through a mapping preserves the key
association.  For a map whose element type is pointer-to-struct: write a
pointer under key `K` through a mapping-entry handle, call `Elem()` on the
returned handle (dereferencing the cached pointer), mutate a nested field
of the resulting value, and then read the *original* mapping back at `K`
independently: the stored pointer still leads to a struct whose mutated
field holds the written value. -/
theorem chained_descent_writeback (h : Heap) (kt st ft : Ty) (ma pa i : Nat)
    (K w rec rec2 : GoVal) (entries : List (GoVal × GoVal)) (nm : String)
    (hm : h.maps ma = some entries)
    (hc : h.cells pa = some rec)
    (hft : st.fieldTy i = some ft)
    (hfs : rec.fieldSet i w = some rec2)
    (hw : w.unbox = w) :
    ((mapEntry.Set h ⟨.copy (.map kt (.ptr st)) (.mapref (some ma)), K, none, nm⟩
        (.copy (.ptr st) (.ptr (some pa)))).bind fun s1 =>
      (mapEntry.Elem s1.1 s1.2).bind fun e2 =>
      (mapEntry.Value s1.1 e2).bind fun ev =>
      (Reflect.field ev i).bind fun fr =>
      (reflectValue.Set s1.1 fr (.copy ft w)).bind fun s2 =>
      (Reflect.mapIndex s2.1
          (.copy (.map kt (.ptr st)) (.mapref (some ma))) K).bind fun ent =>
      (Reflect.elem s2.1 ent).bind fun pv =>
      (Reflect.field pv i).bind fun fv =>
      Reflect.interfaceOf s2.1 fv) = .ok w := by
  have hco1 : Reflect.coerce (.ptr st) (.ptr st) (GoVal.ptr (some pa))
      = GoVal.ptr (some pa) := by
    simp [Reflect.coerce]
  have ha1 : Reflect.assignable (.ptr st) (.ptr st) = true := by
    simp [Reflect.assignable]
  have hcoft : Reflect.coerce ft ft w = w := by
    simp [Reflect.coerce]
  have haft : Reflect.assignable ft ft = true := by
    simp [Reflect.assignable]
  have hA : mapEntry.Set h
      ⟨.copy (.map kt (.ptr st)) (.mapref (some ma)), K, none, nm⟩
      (.copy (.ptr st) (.ptr (some pa)))
      = .ok (h.setMapObj ma (assocSet entries K (.ptr (some pa))),
          ⟨.copy (.map kt (.ptr st)) (.mapref (some ma)), K,
           some (.copy (.ptr st) (.ptr (some pa))), nm⟩) := by
    simp [mapEntry.Set, Reflect.setMapIndex, RVal.staticTy, Reflect.readVal,
      hm, ha1, hco1]
  have hB : mapEntry.Elem (h.setMapObj ma (assocSet entries K (.ptr (some pa))))
      ⟨.copy (.map kt (.ptr st)) (.mapref (some ma)), K,
       some (.copy (.ptr st) (.ptr (some pa))), nm⟩
      = .ok ⟨.copy (.map kt (.ptr st)) (.mapref (some ma)), K,
          some (.ref st pa []), nm⟩ := by
    simp [mapEntry.Elem, Reflect.elem, RVal.staticTy, Reflect.readVal]
  have hC : mapEntry.Value (h.setMapObj ma (assocSet entries K (.ptr (some pa))))
      ⟨.copy (.map kt (.ptr st)) (.mapref (some ma)), K,
       some (.ref st pa []), nm⟩
      = .ok (.ref st pa []) := rfl
  have hD : Reflect.field (.ref st pa []) i = .ok (.ref ft pa [i]) := by
    simp [Reflect.field, hft]
  have hsp : setPath rec [i] w = some rec2 := setPath_single rec i w rec2 hfs
  have hE : reflectValue.Set (h.setMapObj ma (assocSet entries K (.ptr (some pa))))
      (.ref ft pa [i]) (.copy ft w)
      = .ok ((h.setMapObj ma (assocSet entries K (.ptr (some pa)))).setCell pa rec2,
          .ref ft pa [i]) := by
    have hcells1 : (h.setMapObj ma (assocSet entries K (.ptr (some pa)))).cells pa
        = some rec := hc
    simp [reflectValue.Set, Reflect.set, RVal.staticTy, Reflect.readVal,
      hcells1, haft, hcoft, hsp]
  have hmaps2 : ((h.setMapObj ma (assocSet entries K (.ptr (some pa)))).setCell
      pa rec2).maps ma = some (assocSet entries K (.ptr (some pa))) :=
    Heap.setMapObj_maps_self h ma _
  have hF : Reflect.mapIndex
      ((h.setMapObj ma (assocSet entries K (.ptr (some pa)))).setCell pa rec2)
      (.copy (.map kt (.ptr st)) (.mapref (some ma))) K
      = .ok (.copy (.ptr st) (.ptr (some pa))) := by
    simp [Reflect.mapIndex, RVal.staticTy, Reflect.readVal, hmaps2,
      assocGet_assocSet]
  have hG : Reflect.elem
      ((h.setMapObj ma (assocSet entries K (.ptr (some pa)))).setCell pa rec2)
      (.copy (.ptr st) (.ptr (some pa)))
      = .ok (.ref st pa []) := by
    simp [Reflect.elem, RVal.staticTy, Reflect.readVal]
  have hcell2 : ((h.setMapObj ma (assocSet entries K (.ptr (some pa)))).setCell
      pa rec2).cells pa = some rec2 :=
    Heap.setCell_cells_self _ pa rec2
  have hgp : getPath rec2 [i] = some w := by
    simp [getPath, GoVal.fieldSet_fieldGet rec i w rec2 hfs]
  have hI : Reflect.interfaceOf
      ((h.setMapObj ma (assocSet entries K (.ptr (some pa)))).setCell pa rec2)
      (.ref ft pa [i]) = .ok w := by
    simp [Reflect.interfaceOf, Reflect.readVal, hcell2, hgp, hw]
  rw [hA]
  simp only [exceptBindOk]
  rw [hB]
  simp only [exceptBindOk]
  rw [hC]
  simp only [exceptBindOk]
  rw [hD]
  simp only [exceptBindOk]
  rw [hE]
  simp only [exceptBindOk]
  rw [hF]
  simp only [exceptBindOk]
  rw [hG]
  simp only [exceptBindOk]
  rw [hD]
  simp only [exceptBindOk]
  exact hI

/-- Witness for claim C1: the spec's running scenario — after
`Set(&Record)` under key `"a"` and `Elem()`, writing `"y"` into the record
field is visible through an independent read of the map at `"a"`. -/
theorem chained_descent_writeback_witness :
    sampleHeap.maps 0 = some [] ∧
    sampleHeap.cells 1 = some (.structCons (.str "x") .structNil) ∧
    recT.fieldTy 0 = some .str ∧
    (GoVal.structCons (.str "x") .structNil).fieldSet 0 (.str "y")
      = some (.structCons (.str "y") .structNil) ∧
    (GoVal.str "y").unbox = GoVal.str "y" ∧
    ((mapEntry.Set sampleHeap ⟨.copy (.map .str (.ptr recT)) (.mapref (some 0)),
        .str "a", none, "a"⟩
        (.copy (.ptr recT) (.ptr (some 1)))).bind fun s1 =>
      (mapEntry.Elem s1.1 s1.2).bind fun e2 =>
      (mapEntry.Value s1.1 e2).bind fun ev =>
      (Reflect.field ev 0).bind fun fr =>
      (reflectValue.Set s1.1 fr (.copy .str (.str "y"))).bind fun s2 =>
      (Reflect.mapIndex s2.1
          (.copy (.map .str (.ptr recT)) (.mapref (some 0))) (.str "a")).bind fun ent =>
      (Reflect.elem s2.1 ent).bind fun pv =>
      (Reflect.field pv 0).bind fun fv =>
      Reflect.interfaceOf s2.1 fv) = .ok (.str "y") :=
  ⟨rfl, rfl, by decide, by decide, rfl,
   chained_descent_writeback sampleHeap .str recT .str 0 1 0 (.str "a")
     (.str "y") (.structCons (.str "x") .structNil)
     (.structCons (.str "y") .structNil) [] "a"
     rfl rfl (by decide) (by decide) rfl⟩

end Fieldpath
